import Mathlib

set_option autoImplicit false

/-!
Shallow embedding of `src/translate.py`: a spreadsheet translator built from a
shared translation cache, a remote translation service, thread-based dispatch
of translation calls, and per-sheet rewriting of cells and headers.

Machine-level aspects are modelled as follows: the remote call
`client.translate_text` is a function `Svc` returning the translated text or
the raised exception's message; the managed dictionary `self.cache` is its
lookup function `String → Option String`; the thread pool of
`translate_async` executes every submitted call, in an order fixed by a
schedule `σ` (a faithful schedule permutes the submitted items); the process
pool of `translate_excel` collects results in task order (`pool.starmap`)
while all workers share the managed cache, modelled by threading the state
through the ordered task list.
-/

/-- Python `str.isascii()`: `True` iff every code point is below 128
(the empty string counts as ASCII). -/
def pyIsascii (s : String) : Bool := s.data.all fun c => c.toNat ≤ 127

/-- A spreadsheet cell: a string, a number, or a missing value (`NaN`). -/
inductive Cell where
  | str (s : String)
  | num (n : Int)
  | empty
deriving DecidableEq

/-- A worksheet in memory (`pd.DataFrame`): column headers plus a grid. -/
structure DataFrame where
  columns : List String
  rows : List (List Cell)
deriving DecidableEq

/-- The shared translation cache (`MANAGER.dict()`), as its lookup function
`cache.get`: `none` models an absent key. -/
def Cache : Type := String → Option String

/-- The cache of a freshly constructed `Translator`. -/
def emptyCache : Cache := fun _ => none

/-- `self.cache[item] = v`. -/
def cacheInsert (c : Cache) (k v : String) : Cache :=
  fun x => if x = k then some v else c x

/-- The remote service call `client.translate_text`: the translated text, or
the message of the exception the call raised. -/
def Svc : Type := String → Except String String

/-- One record emitted through `self.logger`. -/
inductive LogEntry where
  | error (msg : String)
  | warning (msg : String)
  | info (msg : String)
deriving DecidableEq

/-- The mutable state of a `Translator` during a run: the shared cache, the
log, and the list of items sent to the remote service so far (the latter
instruments the claims about what is and is not sent to the service). -/
structure TrState where
  cache : Cache
  log : List LogEntry
  calls : List String

/-- The state of a freshly constructed `Translator`: empty cache, nothing
logged, no service call issued. -/
def initState : TrState := ⟨emptyCache, [], []⟩

namespace Translator

/-- `Translator.translate` (lines 51–63): one service call; on success the
response is stored in the cache, on any exception the failure is logged with
the offending item and the cache is left unchanged. -/
def translate (svc : Svc) (st : TrState) (item : String) : TrState :=
  match svc item with
  | Except.ok t =>
      { st with
          cache := cacheInsert st.cache item t,
          calls := st.calls ++ [item] }
  | Except.error e =>
      { st with
          log := st.log ++ [LogEntry.error s!"Failed with error: {e}",
                            LogEntry.warning s!"Failed to translate item: {item}"],
          calls := st.calls ++ [item] }

/-- `Translator.translate_async` (lines 65–72): submits one `translate` call
per item to a thread pool of 500 workers and waits for all of them.  The
schedule `σ` fixes the order in which the concurrent cache/log updates land;
a faithful schedule is a permutation of the submitted items. -/
def translate_async (svc : Svc) (σ : List String → List String)
    (st : TrState) (items : List String) : TrState :=
  (σ items).foldl (translate svc) st

/-- `Translator.check_cache` (lines 74–87):
`list(set(items) - set(self.cache.keys()))` — the distinct items that are not
cache keys (Python's set order is unspecified; first-occurrence order here). -/
def check_cache (c : Cache) (items : List String) : List String :=
  (items.filter fun i => (c i).isNone).dedup

/-- The headers of `df` containing a non-ASCII character (line 103). -/
def nonAsciiHeaders (df : DataFrame) : List String :=
  df.columns.filter fun h => !pyIsascii h

/-- The boolean mask of lines 104–105: string cells containing a non-ASCII
character. -/
def cellFlagged : Cell → Bool
  | Cell.str s => !pyIsascii s
  | _ => false

/-- The flagged string values of `df` (`df[mask].stack()`, line 107),
row-major. -/
def flaggedValues (df : DataFrame) : List String :=
  df.rows.flatMap fun r =>
    r.filterMap fun c =>
      match c with
      | Cell.str s => if pyIsascii s then none else some s
      | _ => none

/-- `all_items` of line 108: the distinct flagged cell values unioned with
the flagged headers. -/
def allItems (df : DataFrame) : List String :=
  (flaggedValues df ++ nonAsciiHeaders df).dedup

/-- Lines 112–115: a flagged cell is replaced by its cache lookup — which is
`None`, a missing value, when the lookup misses (`self.cache.get(x)` has no
default); unflagged cells are untouched by `df.mask`. -/
def translateCell (c : Cache) : Cell → Cell
  | Cell.str s =>
      if pyIsascii s then Cell.str s
      else
        match c s with
        | some t => Cell.str t
        | none => Cell.empty
  | x => x

/-- The translated sheet built by lines 112–120 from the post-dispatch cache:
cells rewritten through the mask, headers renamed by
`{old: self.cache.get(old, old) for old in df.columns}`. -/
def rewriteSheet (c : Cache) (df : DataFrame) : DataFrame :=
  { columns := df.columns.map fun old => (c old).getD old,
    rows := df.rows.map fun r => r.map (translateCell c) }

/-- `Translator.translate_DataFrame` (lines 89–122). -/
def translate_DataFrame (svc : Svc) (σ : List String → List String)
    (st : TrState) (key : String) (df : DataFrame) :
    (String × DataFrame) × TrState :=
  let items_to_translate := check_cache st.cache (allItems df)
  let st' := translate_async svc σ st items_to_translate
  ((key, rewriteSheet st'.cache df), st')

/-- `pool.starmap(self.translate_DataFrame, args)` (line 145): one result per
argument pair, collected in task order; all workers share the managed
cache. -/
def processSheets (svc : Svc) (σ : List String → List String)
    (st : TrState) :
    List (String × DataFrame) → List (String × DataFrame) × TrState
  | [] => ([], st)
  | (k, df) :: rest =>
      let r := translate_DataFrame svc σ st k df
      let rs := processSheets svc σ r.2 rest
      (r.1 :: rs.1, rs.2)

/-- Assignment into a Python `dict`: an existing key keeps its position and
takes the new value, a new key is appended. -/
def dictInsert {α : Type} (l : List (String × α)) (k : String) (v : α) :
    List (String × α) :=
  if l.any fun p => p.1 = k then
    l.map fun p => if p.1 = k then (k, v) else p
  else l ++ [(k, v)]

/-- `{key: value for key, value in results}` (line 146), as the dict's
insertion-ordered entry list. -/
def dictOf {α : Type} (l : List (String × α)) : List (String × α) :=
  l.foldl (fun acc p => dictInsert acc p.1 p.2) []

/-- Worksheet names flagged for translation (line 133). -/
def nonAsciiNames (wb : List (String × DataFrame)) : List String :=
  (wb.map Prod.fst).filter fun n => !pyIsascii n

/-- The state after lines 133–139: the flagged worksheet names missing from
the cache are dispatched, with an info line logged when there are any. -/
def nameState (svc : Svc) (σ : List String → List String)
    (st : TrState) (wb : List (String × DataFrame)) : TrState :=
  let toTr := check_cache st.cache (nonAsciiNames wb)
  let n := toTr.length
  if 0 < n then
    translate_async svc σ
      { st with log := st.log ++ [LogEntry.info s!"Translating {n} items"] } toTr
  else st

/-- `args` of line 141: each sheet's data paired with the sheet's translated
name when that name is a cache key, with its original name otherwise. -/
def excelArgs (svc : Svc) (σ : List String → List String)
    (st : TrState) (wb : List (String × DataFrame)) : List (String × DataFrame) :=
  wb.map fun kv => (((nameState svc σ st wb).cache kv.1).getD kv.1, kv.2)

/-- The `results` list of line 145: the per-sheet outputs in task order. -/
def excelResults (svc : Svc) (σ : List String → List String)
    (st : TrState) (wb : List (String × DataFrame)) :
    List (String × DataFrame) :=
  (processSheets svc σ (nameState svc σ st wb) (excelArgs svc σ st wb)).1

/-- `Translator.translate_excel` (lines 124–152) applied to an already loaded
workbook: returns the output file path (line 148 prefixes `translated_` to
`self.file_path`) together with the workbook written to it, and the final
state. -/
def translate_excel (svc : Svc) (σ : List String → List String)
    (st : TrState) (file_path : String) (wb : List (String × DataFrame)) :
    (String × List (String × DataFrame)) × TrState :=
  ((s!"translated_{file_path}", dictOf (excelResults svc σ st wb)),
   (processSheets svc σ (nameState svc σ st wb) (excelArgs svc σ st wb)).2)

end Translator

/-- A constructed `Translator` object (the fields set by `__init__` that the
claims mention). -/
structure Translator where
  file_path : String
  src_lang : String
  trgt_lang : String
deriving DecidableEq

/-- The `file_path` property setter (lines 29–35): the path is stored only
when it exists on the file system, otherwise `FileNotFoundError` is raised;
`fsExists` stands for `os.path.exists`. -/
def set_file_path (fsExists : String → Bool) (p : String) :
    Except String String :=
  if fsExists p then Except.ok p else Except.error "File Not Found Error"

/-- `Translator.__init__` (lines 16–23): assigning `self.file_path` runs the
setter first, so on a missing path the constructor raises before the logger,
cache, languages or client are set up and before any workbook is read,
translated or written (none of those are even inputs here). -/
def TranslatorInit (fsExists : String → Bool) (p src tgt : String) :
    Except String Translator :=
  match set_file_path fsExists p with
  | Except.ok fp =>
      Except.ok { file_path := fp, src_lang := src, trgt_lang := tgt }
  | Except.error e => Except.error e

open Translator

/-! ### Basic lemmas about one dispatch round -/

/-- The value key `k` holds after the service has been consulted for `k`:
the response on success, the previous value on failure. -/
def svcApply (svc : Svc) (c : Cache) (k : String) : Option String :=
  match svc k with
  | Except.ok t => some t
  | Except.error _ => c k

theorem translate_cache (svc : Svc) (st : TrState) (a k : String) :
    (Translator.translate svc st a).cache k =
      if k = a then svcApply svc st.cache a else st.cache k := by
  cases h : svc a with
  | ok t =>
      simp only [Translator.translate, h, svcApply, cacheInsert]
  | error e =>
      simp only [Translator.translate, h, svcApply]
      by_cases hk : k = a
      · subst hk; simp
      · simp [hk]

theorem svcApply_translate (svc : Svc) (st : TrState) (a k : String) :
    svcApply svc (Translator.translate svc st a).cache k =
      svcApply svc st.cache k := by
  cases h : svc k with
  | ok t => simp [svcApply, h]
  | error e =>
      simp only [svcApply, h, translate_cache]
      by_cases hk : k = a
      · subst hk; simp [svcApply, h]
      · simp [hk]

/-- Closed form for the cache after a dispatch round: the order of the
submitted items is irrelevant, only membership matters. -/
theorem foldl_translate_cache (svc : Svc) (items : List String)
    (st : TrState) (k : String) :
    (items.foldl (Translator.translate svc) st).cache k =
      if k ∈ items then svcApply svc st.cache k else st.cache k := by
  induction items generalizing st with
  | nil => simp
  | cons a rest ih =>
      simp only [List.foldl_cons, ih, svcApply_translate, translate_cache,
        List.mem_cons]
      by_cases hr : k ∈ rest
      · simp [hr]
      · by_cases hk : k = a
        · subst hk; simp [hr]
        · simp [hr, hk]

theorem translate_calls (svc : Svc) (st : TrState) (a : String) :
    (Translator.translate svc st a).calls = st.calls ++ [a] := by
  cases h : svc a <;> simp [Translator.translate, h]

/-- A dispatch round calls the service exactly on the submitted items, in
submission order. -/
theorem foldl_translate_calls (svc : Svc) (items : List String) (st : TrState) :
    (items.foldl (Translator.translate svc) st).calls = st.calls ++ items := by
  induction items generalizing st with
  | nil => simp
  | cons a rest ih => simp [ih, translate_calls]

theorem translate_log_extend (svc : Svc) (st : TrState) (a : String) :
    ∃ t, (Translator.translate svc st a).log = st.log ++ t := by
  cases h : svc a with
  | ok v => exact ⟨[], by simp [Translator.translate, h]⟩
  | error e =>
      exact ⟨[LogEntry.error s!"Failed with error: {e}",
              LogEntry.warning s!"Failed to translate item: {a}"],
        by simp [Translator.translate, h]⟩

theorem foldl_translate_log_extend (svc : Svc) (items : List String)
    (st : TrState) :
    ∃ t, (items.foldl (Translator.translate svc) st).log = st.log ++ t := by
  induction items generalizing st with
  | nil => exact ⟨[], by simp⟩
  | cons a rest ih =>
      obtain ⟨t₁, h₁⟩ := translate_log_extend svc st a
      obtain ⟨t₂, h₂⟩ := ih (Translator.translate svc st a)
      exact ⟨t₁ ++ t₂, by simp [h₂, h₁]⟩

/-- A failed item that was dispatched leaves its warning in the log. -/
theorem foldl_translate_log_fail (svc : Svc) (items : List String)
    (st : TrState) (a e : String) (ha : a ∈ items) (he : svc a = Except.error e) :
    LogEntry.warning s!"Failed to translate item: {a}" ∈
      (items.foldl (Translator.translate svc) st).log := by
  induction items generalizing st with
  | nil => cases ha
  | cons b rest ih =>
      simp only [List.foldl_cons]
      rcases List.mem_cons.mp ha with hb | hrest
      · subst hb
        obtain ⟨t, ht⟩ := foldl_translate_log_extend svc rest
          (Translator.translate svc st a)
        rw [ht]
        refine List.mem_append_left _ ?_
        simp [Translator.translate, he]
      · exact ih _ hrest

/-! ### Membership facts about the flagged-item computations -/

theorem mem_check_cache (c : Cache) (items : List String) (k : String) :
    k ∈ check_cache c items ↔ k ∈ items ∧ c k = none := by
  simp [check_cache, List.mem_filter, Option.isNone_iff_eq_none]

theorem mem_flaggedValues (df : DataFrame) (s : String) :
    s ∈ flaggedValues df ↔
      (∃ r ∈ df.rows, Cell.str s ∈ r) ∧ pyIsascii s = false := by
  simp only [flaggedValues, List.mem_flatMap, List.mem_filterMap]
  constructor
  · rintro ⟨r, hr, c, hc, he⟩
    cases c with
    | str t =>
        by_cases pt : pyIsascii t
        · simp [pt] at he
        · simp only [if_neg pt] at he
          cases he
          exact ⟨⟨r, hr, hc⟩, by simpa using pt⟩
    | num n => simp at he
    | empty => simp at he
  · rintro ⟨⟨r, hr, hc⟩, hs⟩
    exact ⟨r, hr, Cell.str s, hc, by simp [hs]⟩

theorem mem_allItems (df : DataFrame) (s : String) :
    s ∈ allItems df ↔ s ∈ flaggedValues df ∨ s ∈ nonAsciiHeaders df := by
  simp [allItems]

theorem mem_nonAsciiHeaders (df : DataFrame) (s : String) :
    s ∈ nonAsciiHeaders df ↔ s ∈ df.columns ∧ pyIsascii s = false := by
  simp [nonAsciiHeaders]

theorem mem_allItems_nonAscii (df : DataFrame) (s : String)
    (h : s ∈ allItems df) : pyIsascii s = false := by
  rcases (mem_allItems df s).mp h with h | h
  · exact ((mem_flaggedValues df s).mp h).2
  · exact ((mem_nonAsciiHeaders df s).mp h).2

theorem mem_nonAsciiNames (wb : List (String × DataFrame)) (s : String) :
    s ∈ nonAsciiNames wb ↔ s ∈ wb.map Prod.fst ∧ pyIsascii s = false := by
  simp [nonAsciiNames]

/-! ### The cache-key invariant: only non-ASCII strings are ever inserted -/

/-- Every key present in the cache is a non-ASCII string. -/
def CacheKeysNA (c : Cache) : Prop :=
  ∀ k : String, (c k).isSome → pyIsascii k = false

theorem cacheKeysNA_empty : CacheKeysNA emptyCache := by
  intro k h
  simp [emptyCache] at h

theorem foldl_translate_keysNA (svc : Svc) (items : List String) (st : TrState)
    (hst : CacheKeysNA st.cache) (hitems : ∀ s ∈ items, pyIsascii s = false) :
    CacheKeysNA (items.foldl (Translator.translate svc) st).cache := by
  intro k hk
  rw [foldl_translate_cache] at hk
  by_cases hm : k ∈ items
  · exact hitems k hm
  · simp only [if_neg hm] at hk
    exact hst k hk

theorem translate_async_keysNA (svc : Svc) (σ : List String → List String)
    (hσ : ∀ l, (σ l).Perm l) (st : TrState) (items : List String)
    (hst : CacheKeysNA st.cache) (hitems : ∀ s ∈ items, pyIsascii s = false) :
    CacheKeysNA (translate_async svc σ st items).cache := by
  unfold Translator.translate_async
  refine foldl_translate_keysNA svc (σ items) st hst ?_
  intro s hs
  exact hitems s ((hσ items).mem_iff.mp hs)

theorem translate_DataFrame_keysNA (svc : Svc) (σ : List String → List String)
    (hσ : ∀ l, (σ l).Perm l) (st : TrState) (key : String) (df : DataFrame)
    (hst : CacheKeysNA st.cache) :
    CacheKeysNA (translate_DataFrame svc σ st key df).2.cache := by
  refine translate_async_keysNA svc σ hσ st _ hst ?_
  intro s hs
  exact mem_allItems_nonAscii df s ((mem_check_cache _ _ s).mp hs).1

theorem processSheets_keysNA (svc : Svc) (σ : List String → List String)
    (hσ : ∀ l, (σ l).Perm l) (st : TrState) (l : List (String × DataFrame))
    (hst : CacheKeysNA st.cache) :
    CacheKeysNA (processSheets svc σ st l).2.cache := by
  induction l generalizing st with
  | nil => exact hst
  | cons p rest ih =>
      obtain ⟨k, df⟩ := p
      exact ih _ (translate_DataFrame_keysNA svc σ hσ st k df hst)

theorem nameState_keysNA (svc : Svc) (σ : List String → List String)
    (hσ : ∀ l, (σ l).Perm l) (st : TrState) (wb : List (String × DataFrame))
    (hst : CacheKeysNA st.cache) :
    CacheKeysNA (nameState svc σ st wb).cache := by
  unfold Translator.nameState
  by_cases h : 0 < (check_cache st.cache (nonAsciiNames wb)).length
  · simp only [if_pos h]
    refine translate_async_keysNA svc σ hσ _ _ hst ?_
    intro s hs
    exact ((mem_nonAsciiNames wb s).mp ((mem_check_cache _ _ s).mp hs).1).2
  · simp only [if_neg h]
    exact hst

theorem translate_excel_keysNA (svc : Svc) (σ : List String → List String)
    (hσ : ∀ l, (σ l).Perm l) (st : TrState) (path : String)
    (wb : List (String × DataFrame)) (hst : CacheKeysNA st.cache) :
    CacheKeysNA (translate_excel svc σ st path wb).2.cache := by
  exact processSheets_keysNA svc σ hσ _ _ (nameState_keysNA svc σ hσ st wb hst)

/-! ### The post-dispatch cache depends only on the submitted set -/

theorem foldl_translate_cache_congr (svc : Svc) (items₁ items₂ : List String)
    (st₁ st₂ : TrState) (hc : st₁.cache = st₂.cache)
    (hmem : ∀ k, k ∈ items₁ ↔ k ∈ items₂) :
    (items₁.foldl (Translator.translate svc) st₁).cache =
      (items₂.foldl (Translator.translate svc) st₂).cache := by
  funext k
  rw [foldl_translate_cache, foldl_translate_cache, hc]
  by_cases h : k ∈ items₁
  · rw [if_pos h, if_pos ((hmem k).mp h)]
  · rw [if_neg h, if_neg fun hh => h ((hmem k).mpr hh)]

theorem translate_async_cache_congr (svc : Svc)
    (σ₁ σ₂ : List String → List String)
    (hσ₁ : ∀ l, (σ₁ l).Perm l) (hσ₂ : ∀ l, (σ₂ l).Perm l)
    (st₁ st₂ : TrState) (hc : st₁.cache = st₂.cache) (items : List String) :
    (translate_async svc σ₁ st₁ items).cache =
      (translate_async svc σ₂ st₂ items).cache := by
  unfold Translator.translate_async
  refine foldl_translate_cache_congr svc _ _ _ _ hc fun k => ?_
  rw [(hσ₁ items).mem_iff, (hσ₂ items).mem_iff]

theorem translate_DataFrame_congr (svc : Svc)
    (σ₁ σ₂ : List String → List String)
    (hσ₁ : ∀ l, (σ₁ l).Perm l) (hσ₂ : ∀ l, (σ₂ l).Perm l)
    (st₁ st₂ : TrState) (hc : st₁.cache = st₂.cache)
    (key : String) (df : DataFrame) :
    (translate_DataFrame svc σ₁ st₁ key df).1 =
        (translate_DataFrame svc σ₂ st₂ key df).1 ∧
      (translate_DataFrame svc σ₁ st₁ key df).2.cache =
        (translate_DataFrame svc σ₂ st₂ key df).2.cache := by
  have hcc : check_cache st₁.cache (allItems df) =
      check_cache st₂.cache (allItems df) := by rw [hc]
  have hcache :
      (translate_async svc σ₁ st₁ (check_cache st₁.cache (allItems df))).cache =
        (translate_async svc σ₂ st₂ (check_cache st₂.cache (allItems df))).cache := by
    rw [hcc]
    exact translate_async_cache_congr svc σ₁ σ₂ hσ₁ hσ₂ st₁ st₂ hc _
  exact ⟨by simp only [Translator.translate_DataFrame, hcache],
    by simp only [Translator.translate_DataFrame, hcache]⟩

theorem nameState_cache_congr (svc : Svc)
    (σ₁ σ₂ : List String → List String)
    (hσ₁ : ∀ l, (σ₁ l).Perm l) (hσ₂ : ∀ l, (σ₂ l).Perm l)
    (st₁ st₂ : TrState) (hc : st₁.cache = st₂.cache)
    (wb : List (String × DataFrame)) :
    (nameState svc σ₁ st₁ wb).cache = (nameState svc σ₂ st₂ wb).cache := by
  have hcc : check_cache st₁.cache (nonAsciiNames wb) =
      check_cache st₂.cache (nonAsciiNames wb) := by rw [hc]
  simp only [Translator.nameState, hcc]
  by_cases h : 0 < (check_cache st₂.cache (nonAsciiNames wb)).length
  · simp only [if_pos h]
    exact translate_async_cache_congr svc σ₁ σ₂ hσ₁ hσ₂ _ _ (by simpa using hc) _
  · simp only [if_neg h]
    exact hc

theorem processSheets_congr (svc : Svc)
    (σ₁ σ₂ : List String → List String)
    (hσ₁ : ∀ l, (σ₁ l).Perm l) (hσ₂ : ∀ l, (σ₂ l).Perm l)
    (l : List (String × DataFrame)) (st₁ st₂ : TrState)
    (hc : st₁.cache = st₂.cache) :
    (processSheets svc σ₁ st₁ l).1 = (processSheets svc σ₂ st₂ l).1 ∧
      (processSheets svc σ₁ st₁ l).2.cache =
        (processSheets svc σ₂ st₂ l).2.cache := by
  induction l generalizing st₁ st₂ with
  | nil => exact ⟨rfl, hc⟩
  | cons p rest ih =>
      obtain ⟨k, df⟩ := p
      obtain ⟨h1, h2⟩ :=
        translate_DataFrame_congr svc σ₁ σ₂ hσ₁ hσ₂ st₁ st₂ hc k df
      obtain ⟨h3, h4⟩ := ih _ _ h2
      refine ⟨?_, by simp only [Translator.processSheets]; exact h4⟩
      simp only [Translator.processSheets]
      rw [h1, h3]

theorem excelArgs_congr (svc : Svc)
    (σ₁ σ₂ : List String → List String)
    (hσ₁ : ∀ l, (σ₁ l).Perm l) (hσ₂ : ∀ l, (σ₂ l).Perm l)
    (st₁ st₂ : TrState) (hc : st₁.cache = st₂.cache)
    (wb : List (String × DataFrame)) :
    excelArgs svc σ₁ st₁ wb = excelArgs svc σ₂ st₂ wb := by
  unfold Translator.excelArgs
  simp only [nameState_cache_congr svc σ₁ σ₂ hσ₁ hσ₂ st₁ st₂ hc wb]

/-! ### Shape of the process-pool results -/

theorem processSheets_map_fst (svc : Svc) (σ : List String → List String)
    (st : TrState) (l : List (String × DataFrame)) :
    (processSheets svc σ st l).1.map Prod.fst = l.map Prod.fst := by
  induction l generalizing st with
  | nil => rfl
  | cons p rest ih =>
      obtain ⟨k, df⟩ := p
      simp [Translator.processSheets, Translator.translate_DataFrame, ih]

theorem processSheets_length (svc : Svc) (σ : List String → List String)
    (st : TrState) (l : List (String × DataFrame)) :
    (processSheets svc σ st l).1.length = l.length := by
  have h := congrArg List.length (processSheets_map_fst svc σ st l)
  simpa using h

theorem processSheets_get_keysNA (svc : Svc) (σ : List String → List String)
    (hσ : ∀ ll, (σ ll).Perm ll) (st : TrState) (l : List (String × DataFrame))
    (hst : CacheKeysNA st.cache) (i : Nat) (k : String) (df : DataFrame)
    (h : l[i]? = some (k, df)) :
    ∃ c : Cache, CacheKeysNA c ∧
      (processSheets svc σ st l).1[i]? = some (k, rewriteSheet c df) := by
  induction l generalizing st i with
  | nil => simp at h
  | cons p rest ih =>
      obtain ⟨k0, df0⟩ := p
      cases i with
      | zero =>
          rw [List.getElem?_cons_zero] at h
          cases h
          refine ⟨(translate_DataFrame svc σ st k df).2.cache,
            translate_DataFrame_keysNA svc σ hσ st k df hst, ?_⟩
          simp [Translator.processSheets, Translator.translate_DataFrame]
      | succ j =>
          rw [List.getElem?_cons_succ] at h
          obtain ⟨c, hc, hres⟩ :=
            ih ((translate_DataFrame svc σ st k0 df0).2)
              (translate_DataFrame_keysNA svc σ hσ st k0 df0 hst) j h
          exact ⟨c, hc, by
            simp only [Translator.processSheets, List.getElem?_cons_succ]
            exact hres⟩

/-! ### Python dict assembly -/

theorem dictInsert_map_fst_of_mem {α : Type} (l : List (String × α))
    (k : String) (v : α) (h : k ∈ l.map Prod.fst) :
    (dictInsert l k v).map Prod.fst = l.map Prod.fst := by
  unfold Translator.dictInsert
  rw [if_pos]
  · rw [List.map_map]
    refine List.map_congr_left fun p hp => ?_
    by_cases hpk : p.1 = k
    · simp [hpk]
    · simp [hpk]
  · obtain ⟨p, hp, hpk⟩ := List.mem_map.mp h
    simp only [List.any_eq_true, decide_eq_true_eq]
    exact ⟨p, hp, hpk⟩

theorem dictInsert_of_not_mem {α : Type} (l : List (String × α))
    (k : String) (v : α) (h : ¬ k ∈ l.map Prod.fst) :
    dictInsert l k v = l ++ [(k, v)] := by
  unfold Translator.dictInsert
  rw [if_neg]
  intro hany
  simp only [List.any_eq_true, decide_eq_true_eq] at hany
  obtain ⟨p, hp, hpk⟩ := hany
  exact h (List.mem_map.mpr ⟨p, hp, hpk⟩)

theorem mem_dictInsert_map_fst {α : Type} (l : List (String × α))
    (k0 k : String) (v : α) :
    k ∈ (dictInsert l k0 v).map Prod.fst ↔ k ∈ l.map Prod.fst ∨ k = k0 := by
  by_cases h : k0 ∈ l.map Prod.fst
  · rw [dictInsert_map_fst_of_mem l k0 v h]
    constructor
    · exact fun hh => Or.inl hh
    · rintro (hh | hh)
      · exact hh
      · exact hh ▸ h
  · rw [dictInsert_of_not_mem l k0 v h]
    simp

theorem foldl_dictInsert_mem_fst {α : Type} (l acc : List (String × α))
    (k : String) :
    k ∈ ((l.foldl (fun a p => dictInsert a p.1 p.2) acc).map Prod.fst) ↔
      k ∈ acc.map Prod.fst ∨ k ∈ l.map Prod.fst := by
  induction l generalizing acc with
  | nil => simp
  | cons p rest ih =>
      rw [List.foldl_cons, ih, mem_dictInsert_map_fst]
      simp only [List.map_cons, List.mem_cons]
      constructor
      · rintro ((h | h) | h)
        · exact Or.inl h
        · exact Or.inr (Or.inl (h ▸ rfl))
        · exact Or.inr (Or.inr h)
      · rintro (h | h | h)
        · exact Or.inl (Or.inl h)
        · exact Or.inl (Or.inr h)
        · exact Or.inr h

theorem mem_dictOf_map_fst {α : Type} (l : List (String × α)) (k : String) :
    k ∈ (dictOf l).map Prod.fst ↔ k ∈ l.map Prod.fst := by
  unfold Translator.dictOf
  rw [foldl_dictInsert_mem_fst]
  simp

theorem foldl_dictInsert_nodup {α : Type} (l acc : List (String × α))
    (h : (acc.map Prod.fst ++ l.map Prod.fst).Nodup) :
    l.foldl (fun a p => dictInsert a p.1 p.2) acc = acc ++ l := by
  induction l generalizing acc with
  | nil => simp
  | cons p rest ih =>
      rw [List.foldl_cons]
      have hsplit := List.nodup_append.mp h
      have hnot : ¬ p.1 ∈ acc.map Prod.fst := by
        intro hmem
        exact absurd (by simp : p.1 ∈ (p :: rest).map Prod.fst)
          (hsplit.2.2 hmem)
      rw [dictInsert_of_not_mem acc p.1 p.2 hnot]
      have hrec := ih (acc ++ [(p.1, p.2)]) (by
        simp only [List.map_append, List.map_cons] at h ⊢
        simpa [List.append_assoc] using h)
      rw [hrec]
      simp

theorem dictOf_eq_self_of_nodup {α : Type} (l : List (String × α))
    (h : (l.map Prod.fst).Nodup) : dictOf l = l := by
  have hrec := foldl_dictInsert_nodup l [] (by simpa using h)
  simpa [Translator.dictOf] using hrec

/-! ### Projections and further support lemmas -/

theorem translate_DataFrame_snd (svc : Svc) (σ : List String → List String)
    (st : TrState) (key : String) (df : DataFrame) :
    (translate_DataFrame svc σ st key df).2 =
      translate_async svc σ st (check_cache st.cache (allItems df)) := rfl

theorem translate_DataFrame_fst (svc : Svc) (σ : List String → List String)
    (st : TrState) (key : String) (df : DataFrame) :
    (translate_DataFrame svc σ st key df).1 =
      (key, rewriteSheet
        (translate_async svc σ st (check_cache st.cache (allItems df))).cache
        df) := rfl

theorem translate_async_calls (svc : Svc) (σ : List String → List String)
    (st : TrState) (items : List String) :
    (translate_async svc σ st items).calls = st.calls ++ σ items :=
  foldl_translate_calls svc (σ items) st

theorem translate_async_callsNA (svc : Svc) (σ : List String → List String)
    (hσ : ∀ l, (σ l).Perm l) (st : TrState) (items : List String)
    (h1 : ∀ s ∈ st.calls, pyIsascii s = false)
    (h2 : ∀ s ∈ items, pyIsascii s = false) :
    ∀ s ∈ (translate_async svc σ st items).calls, pyIsascii s = false := by
  rw [translate_async_calls]
  intro s hs
  rcases List.mem_append.mp hs with h | h
  · exact h1 s h
  · exact h2 s ((hσ items).mem_iff.mp h)

theorem translate_DataFrame_callsNA (svc : Svc) (σ : List String → List String)
    (hσ : ∀ l, (σ l).Perm l) (st : TrState) (key : String) (df : DataFrame)
    (h1 : ∀ s ∈ st.calls, pyIsascii s = false) :
    ∀ s ∈ (translate_DataFrame svc σ st key df).2.calls, pyIsascii s = false := by
  rw [translate_DataFrame_snd]
  refine translate_async_callsNA svc σ hσ st _ h1 ?_
  intro s hs
  exact mem_allItems_nonAscii df s ((mem_check_cache _ _ s).mp hs).1

theorem nameState_callsNA (svc : Svc) (σ : List String → List String)
    (hσ : ∀ l, (σ l).Perm l) (st : TrState) (wb : List (String × DataFrame))
    (h1 : ∀ s ∈ st.calls, pyIsascii s = false) :
    ∀ s ∈ (nameState svc σ st wb).calls, pyIsascii s = false := by
  unfold Translator.nameState
  by_cases h : 0 < (check_cache st.cache (nonAsciiNames wb)).length
  · simp only [if_pos h]
    refine translate_async_callsNA svc σ hσ _ _ (by simpa using h1) ?_
    intro s hs
    exact ((mem_nonAsciiNames wb s).mp ((mem_check_cache _ _ s).mp hs).1).2
  · simp only [if_neg h]
    exact h1

theorem processSheets_callsNA (svc : Svc) (σ : List String → List String)
    (hσ : ∀ l, (σ l).Perm l) (st : TrState) (l : List (String × DataFrame))
    (h1 : ∀ s ∈ st.calls, pyIsascii s = false) :
    ∀ s ∈ (processSheets svc σ st l).2.calls, pyIsascii s = false := by
  induction l generalizing st with
  | nil => exact h1
  | cons p rest ih =>
      obtain ⟨k, df⟩ := p
      exact ih _ (translate_DataFrame_callsNA svc σ hσ st k df h1)

theorem translate_excel_callsNA (svc : Svc) (σ : List String → List String)
    (hσ : ∀ l, (σ l).Perm l) (st : TrState) (path : String)
    (wb : List (String × DataFrame))
    (h1 : ∀ s ∈ st.calls, pyIsascii s = false) :
    ∀ s ∈ (translate_excel svc σ st path wb).2.calls, pyIsascii s = false :=
  processSheets_callsNA svc σ hσ _ _ (nameState_callsNA svc σ hσ st wb h1)

theorem translate_async_log_extend (svc : Svc) (σ : List String → List String)
    (st : TrState) (items : List String) :
    ∃ t, (translate_async svc σ st items).log = st.log ++ t :=
  foldl_translate_log_extend svc (σ items) st

theorem processSheets_log_extend (svc : Svc) (σ : List String → List String)
    (st : TrState) (l : List (String × DataFrame)) :
    ∃ t, (processSheets svc σ st l).2.log = st.log ++ t := by
  induction l generalizing st with
  | nil => exact ⟨[], by simp [Translator.processSheets]⟩
  | cons p rest ih =>
      obtain ⟨k, df⟩ := p
      obtain ⟨t₁, h₁⟩ := translate_async_log_extend svc σ st
        (check_cache st.cache (allItems df))
      obtain ⟨t₂, h₂⟩ := ih (translate_DataFrame svc σ st k df).2
      refine ⟨t₁ ++ t₂, ?_⟩
      show (processSheets svc σ (translate_DataFrame svc σ st k df).2 rest).2.log = _
      rw [h₂, translate_DataFrame_snd, h₁, List.append_assoc]

/-- Closed form for the cache after the worksheet-name round. -/
theorem nameState_cache_eq (svc : Svc) (σ : List String → List String)
    (hσ : ∀ l, (σ l).Perm l) (st : TrState) (wb : List (String × DataFrame))
    (k : String) :
    (nameState svc σ st wb).cache k =
      if k ∈ check_cache st.cache (nonAsciiNames wb) then svcApply svc st.cache k
      else st.cache k := by
  unfold Translator.nameState
  by_cases h : 0 < (check_cache st.cache (nonAsciiNames wb)).length
  · simp only [if_pos h]
    unfold Translator.translate_async
    rw [foldl_translate_cache]
    simp only [(hσ (check_cache st.cache (nonAsciiNames wb))).mem_iff]
  · simp only [if_neg h]
    have hnil : check_cache st.cache (nonAsciiNames wb) = [] :=
      List.length_eq_zero.mp (Nat.eq_zero_of_not_pos h)
    simp [hnil]

/-- An ASCII string is never a key of an invariant-respecting cache, so the
rename lookup `cache.get(old, old)` keeps it. -/
theorem getD_ascii_of_keysNA (c : Cache) (hc : CacheKeysNA c) (h0 : String)
    (ha : pyIsascii h0 = true) : (c h0).getD h0 = h0 := by
  cases hcc : c h0 with
  | none => rfl
  | some v => exact absurd (hc h0 (by simp [hcc])) (by simp [ha])

theorem translateCell_unflagged (c : Cache) (cell : Cell)
    (h : cellFlagged cell = false) : translateCell c cell = cell := by
  cases cell with
  | str s =>
      have hs : pyIsascii s = true := by
        simpa [Translator.cellFlagged] using h
      simp [Translator.translateCell, hs]
  | num n => rfl
  | empty => rfl

/-- Positional cell access, used to state the per-cell claims. -/
def getCell (df : DataFrame) (i j : Nat) : Option Cell :=
  df.rows[i]?.bind fun r => r[j]?

theorem getCell_rewriteSheet (c : Cache) (df : DataFrame) (i j : Nat) :
    getCell (rewriteSheet c df) i j =
      (getCell df i j).map (translateCell c) := by
  unfold getCell Translator.rewriteSheet
  simp only [List.getElem?_map]
  cases h : df.rows[i]? with
  | none => rfl
  | some r => simp [List.getElem?_map]

theorem rewriteSheet_header (c : Cache) (df : DataFrame) (j : Nat)
    (h0 : String) (hj : df.columns[j]? = some h0) :
    (rewriteSheet c df).columns[j]? = some ((c h0).getD h0) := by
  unfold Translator.rewriteSheet
  simp [List.getElem?_map, hj]

theorem processSheets_get (svc : Svc) (σ : List String → List String)
    (st : TrState) (l : List (String × DataFrame)) (i : Nat) (k : String)
    (df : DataFrame) (h : l[i]? = some (k, df)) :
    ∃ c : Cache, (processSheets svc σ st l).1[i]? =
      some (k, rewriteSheet c df) := by
  induction l generalizing st i with
  | nil => simp at h
  | cons p rest ih =>
      obtain ⟨k0, df0⟩ := p
      cases i with
      | zero =>
          rw [List.getElem?_cons_zero] at h
          cases h
          refine ⟨(translate_DataFrame svc σ st k df).2.cache, ?_⟩
          simp [Translator.processSheets, Translator.translate_DataFrame]
      | succ j =>
          rw [List.getElem?_cons_succ] at h
          obtain ⟨c, hres⟩ := ih ((translate_DataFrame svc σ st k0 df0).2) j h
          exact ⟨c, by
            simp only [Translator.processSheets, List.getElem?_cons_succ]
            exact hres⟩


theorem list_map_self {α : Type} (l : List α) (f : α → α)
    (h : ∀ a ∈ l, f a = a) : l.map f = l := by
  induction l with
  | nil => rfl
  | cons a rest ih =>
      rw [List.map_cons, h a (List.mem_cons_self a rest),
        ih fun b hb => h b (List.mem_cons_of_mem a hb)]

/-- A sheet all of whose headers are ASCII and whose cells are all unflagged
is left untouched by the rewrite, for any cache respecting the non-ASCII
key invariant. -/
theorem rewriteSheet_eq_self (c : Cache) (hc : CacheKeysNA c) (df : DataFrame)
    (hcols : ∀ h0 ∈ df.columns, pyIsascii h0 = true)
    (hcells : ∀ r ∈ df.rows, ∀ cell ∈ r, cellFlagged cell = false) :
    rewriteSheet c df = df := by
  unfold Translator.rewriteSheet
  have h1 := list_map_self df.columns (fun old => (c old).getD old)
    fun h0 hh => getD_ascii_of_keysNA c hc h0 (hcols h0 hh)
  have h2 := list_map_self df.rows (fun r => r.map (translateCell c))
    fun r hr => list_map_self r (translateCell c)
      fun cell hcell => translateCell_unflagged c cell (hcells r hr cell hcell)
  rw [h1, h2]

/-! ### Claim theorems -/

/-- C1: evaluation at the failing input.  The sheet has the single flagged
cell "é" and the flagged header "ü"; the service fails on both, so both
translations are absent from the cache after dispatch.  The claim's fallback
law demands the output cell still be "é"; the code instead maps the cell
through `self.cache.get(x)` with no default and `df.mask` writes the
resulting `None` into the sheet, so the output cell is the missing value —
while the header, renamed via `cache.get(old, old)`, does keep its original
name. -/
theorem C1_cell_fallback_failing_eval :
    (Translator.translate_DataFrame (fun _ => Except.error "boom") id
        initState "Sheet1" ⟨["ü"], [[Cell.str "é"]]⟩).1.2 =
      ⟨["ü"], [[Cell.empty]]⟩ ∧
      Cell.empty ≠ Cell.str "é" := by
  exact ⟨by decide, by decide⟩

/-- C4: if the service call for an item raises, `translate` logs the failure
(the error, and a warning naming the offending item), does not insert the
item as a cache key, leaves the cache entirely unchanged, and still appends
the item to the calls made; being a total function, it returns to its caller
rather than propagating the exception. -/
theorem C4_translate_failure_contained (svc : Svc) (st : TrState)
    (item e : String) (h : svc item = Except.error e) :
    (Translator.translate svc st item).cache = st.cache ∧
      (Translator.translate svc st item).log =
        st.log ++ [LogEntry.error s!"Failed with error: {e}",
                   LogEntry.warning s!"Failed to translate item: {item}"] ∧
      (Translator.translate svc st item).calls = st.calls ++ [item] := by
  refine ⟨?_, ?_, ?_⟩ <;> simp [Translator.translate, h]

/-- Witness for C4 at a concrete failing service and item. -/
theorem C4_witness :
    (Translator.translate (fun _ => Except.error "boom") initState "été").cache =
        initState.cache ∧
      (Translator.translate (fun _ => Except.error "boom") initState "été").log =
        initState.log ++
          [LogEntry.error "Failed with error: boom",
           LogEntry.warning "Failed to translate item: été"] ∧
      (Translator.translate (fun _ => Except.error "boom") initState "été").calls =
        initState.calls ++ ["été"] :=
  C4_translate_failure_contained (fun _ => Except.error "boom") initState
    "été" "boom" rfl

/-- C7: constructing a `Translator` on a path absent from the file system
raises `FileNotFoundError` — before any loading, translation or writing, as
the constructor model takes no workbook, service or output input at all —
while on an existing path the construction succeeds and stores the path. -/
theorem C7_init_checks_path (fsExists : String → Bool) (p src tgt : String) :
    (fsExists p = false →
        TranslatorInit fsExists p src tgt =
          Except.error "File Not Found Error") ∧
      (fsExists p = true →
        TranslatorInit fsExists p src tgt =
          Except.ok { file_path := p, src_lang := src, trgt_lang := tgt }) := by
  constructor <;> intro h <;> simp [TranslatorInit, set_file_path, h]

/-- Witness for C7: a file system on which only "book.xlsx" exists. -/
theorem C7_witness :
    TranslatorInit (fun q => q == "book.xlsx") "missing.xlsx" "fr" "en" =
        Except.error "File Not Found Error" ∧
      TranslatorInit (fun q => q == "book.xlsx") "book.xlsx" "fr" "en" =
        Except.ok { file_path := "book.xlsx", src_lang := "fr", trgt_lang := "en" } :=
  ⟨(C7_init_checks_path (fun q => q == "book.xlsx") "missing.xlsx" "fr" "en").1
      (by decide),
   (C7_init_checks_path (fun q => q == "book.xlsx") "book.xlsx" "fr" "en").2
      (by decide)⟩

/-- C2: during `translate_DataFrame` the service is called exactly on the
flagged items of the sheet that are not already cache keys (the calls made
are the previous calls plus precisely that subset); a flagged cell value
already present in the cache is not in the dispatched subset, and the
corresponding output cell equals the cached translation. -/
theorem C2_dispatch_exactly_uncached (svc : Svc)
    (σ : List String → List String) (hσ : ∀ l, (σ l).Perm l)
    (st : TrState) (key : String) (df : DataFrame) :
    (∀ s : String,
        s ∈ (Translator.translate_DataFrame svc σ st key df).2.calls ↔
          s ∈ st.calls ∨ (s ∈ allItems df ∧ st.cache s = none)) ∧
      (∀ i j s tr, getCell df i j = some (Cell.str s) → pyIsascii s = false →
        st.cache s = some tr →
          s ∉ check_cache st.cache (allItems df) ∧
            getCell (Translator.translate_DataFrame svc σ st key df).1.2 i j =
              some (Cell.str tr)) := by
  constructor
  · intro s
    rw [translate_DataFrame_snd, translate_async_calls, List.mem_append,
      (hσ _).mem_iff, mem_check_cache]
  · intro i j s tr hcell hna hcached
    have hnotin : s ∉ check_cache st.cache (allItems df) := by
      rw [mem_check_cache]
      rintro ⟨-, hnone⟩
      rw [hcached] at hnone
      cases hnone
    have hc2 : (translate_async svc σ st
        (check_cache st.cache (allItems df))).cache s = some tr := by
      unfold Translator.translate_async
      rw [foldl_translate_cache, if_neg fun hmem => hnotin ((hσ _).mem_iff.mp hmem)]
      exact hcached
    refine ⟨hnotin, ?_⟩
    rw [translate_DataFrame_fst]
    simp only
    rw [getCell_rewriteSheet, hcell]
    simp [Translator.translateCell, hna, hc2]

/-- Witness for C2: the cache already holds the pair "café" ↦ "coffee shop";
the sheet cell "café" is not in the dispatched subset and the output cell is
"coffee shop". -/
theorem C2_witness :
    "café" ∉ check_cache
        (fun s => if s = "café" then some "coffee shop" else none)
        (allItems ⟨["A"], [[Cell.str "café"]]⟩) ∧
      getCell (Translator.translate_DataFrame (fun _ => Except.error "net") id
          ⟨(fun s => if s = "café" then some "coffee shop" else none), [], []⟩
          "Sheet1" ⟨["A"], [[Cell.str "café"]]⟩).1.2 0 0 =
        some (Cell.str "coffee shop") :=
  (C2_dispatch_exactly_uncached (fun _ => Except.error "net") id
      (fun l => List.Perm.refl l)
      ⟨(fun s => if s = "café" then some "coffee shop" else none), [], []⟩
      "Sheet1" ⟨["A"], [[Cell.str "café"]]⟩).2 0 0 "café" "coffee shop"
    rfl (by decide) (by simp)

/-- C6 counterexample: with input path "data/book.xlsx" the code writes to
`'translated_' + self.file_path`, i.e. "translated_data/book.xlsx" — the
prefix lands on the whole path, not on the file name "book.xlsx" as the
claim states; and when the two input sheets' names translate to the same
string, the results dict collapses them, so the output holds one sheet for
two input sheets (keeping only the last sheet's data). -/
theorem C6_counterexample :
    (Translator.translate_excel (fun _ => Except.ok "cat") id initState
        "data/book.xlsx"
        [("猫", ⟨["A"], []⟩), ("ネコ", ⟨["B"], []⟩)]).1.1 =
        "translated_data/book.xlsx" ∧
      "translated_data/book.xlsx" ≠ "translated_book.xlsx" ∧
      (Translator.translate_excel (fun _ => Except.ok "cat") id initState
          "data/book.xlsx"
          [("猫", ⟨["A"], []⟩), ("ネコ", ⟨["B"], []⟩)]).1.2 =
        [("cat", ⟨["B"], []⟩)] := by
  exact ⟨by decide, by decide, by decide⟩

/-- C6 (amended): `translate_excel` writes to a file whose name is the full
input path prefixed with `translated_`, and the output workbook has one
sheet per input sheet provided the output sheet names (the input names after
cache translation) are pairwise distinct. -/
theorem C6_amended_output (svc : Svc) (σ : List String → List String)
    (st : TrState) (path : String) (wb : List (String × DataFrame))
    (hnodup : ((excelResults svc σ st wb).map Prod.fst).Nodup) :
    (Translator.translate_excel svc σ st path wb).1.1 =
        "translated_" ++ path ∧
      (Translator.translate_excel svc σ st path wb).1.2.length = wb.length := by
  constructor
  · show "translated_" ++ path ++ "" = "translated_" ++ path
    simp
  · show (dictOf (excelResults svc σ st wb)).length = wb.length
    rw [dictOf_eq_self_of_nodup _ hnodup]
    unfold Translator.excelResults
    rw [processSheets_length]
    simp [Translator.excelArgs]

/-- Witness for C6 (amended) on a two-sheet workbook with distinct output
names. -/
theorem C6_witness :
    (Translator.translate_excel (fun s => Except.ok (s ++ "X")) id initState
        "book.xlsx" [("日", ⟨["A"], []⟩), ("Sheet2", ⟨[], []⟩)]).1.1 =
        "translated_" ++ "book.xlsx" ∧
      (Translator.translate_excel (fun s => Except.ok (s ++ "X")) id initState
          "book.xlsx" [("日", ⟨["A"], []⟩), ("Sheet2", ⟨[], []⟩)]).1.2.length =
        ([("日", (⟨["A"], []⟩ : DataFrame)), ("Sheet2", ⟨[], []⟩)]).length :=
  C6_amended_output (fun s => Except.ok (s ++ "X")) id initState "book.xlsx"
    [("日", ⟨["A"], []⟩), ("Sheet2", ⟨[], []⟩)] (by decide)

/-- C9 counterexample: two sheets are loaded, but when their translated
names coincide the written workbook is a single sheet holding the second
sheet's data at the first position — the output sheet sequence is not the
loaded sheet sequence. -/
theorem C9_counterexample :
    (Translator.translate_excel (fun _ => Except.ok "dog") id initState
        "b.xlsx" [("犬", ⟨["A"], []⟩), ("イヌ", ⟨["B"], []⟩)]).1.2 =
        [("dog", ⟨["B"], []⟩)] ∧
      ([("犬", (⟨["A"], []⟩ : DataFrame)), ("イヌ", ⟨["B"], []⟩)]).length = 2 := by
  exact ⟨by decide, by decide⟩

/-- C9 (amended): provided the output sheet names are pairwise distinct, the
insertion-ordered dict built from the `pool.starmap` results is the result
list itself, and the result names are exactly the input sheet names, in
input order, each mapped through the post-dispatch name cache — so the
output workbook preserves the input sheet order. -/
theorem C9_amended_order (svc : Svc) (σ : List String → List String)
    (st : TrState) (path : String) (wb : List (String × DataFrame))
    (hnodup : ((excelResults svc σ st wb).map Prod.fst).Nodup) :
    (Translator.translate_excel svc σ st path wb).1.2 =
        excelResults svc σ st wb ∧
      (excelResults svc σ st wb).map Prod.fst =
        wb.map fun kv => ((nameState svc σ st wb).cache kv.1).getD kv.1 := by
  constructor
  · exact dictOf_eq_self_of_nodup _ hnodup
  · unfold Translator.excelResults
    rw [processSheets_map_fst]
    unfold Translator.excelArgs
    rw [List.map_map]
    rfl

/-- Witness for C9 (amended) on a two-sheet workbook with distinct output
names. -/
theorem C9_witness :
    (Translator.translate_excel (fun s => Except.ok (s ++ "Y")) id initState
        "wb.xlsx" [("本", ⟨["A"], []⟩), ("Data", ⟨[], []⟩)]).1.2 =
        excelResults (fun s => Except.ok (s ++ "Y")) id initState
          [("本", ⟨["A"], []⟩), ("Data", ⟨[], []⟩)] ∧
      (excelResults (fun s => Except.ok (s ++ "Y")) id initState
          [("本", ⟨["A"], []⟩), ("Data", ⟨[], []⟩)]).map Prod.fst =
        ([("本", (⟨["A"], []⟩ : DataFrame)), ("Data", ⟨[], []⟩)]).map
          fun kv =>
            ((nameState (fun s => Except.ok (s ++ "Y")) id initState
                [("本", ⟨["A"], []⟩), ("Data", ⟨[], []⟩)]).cache kv.1).getD kv.1 :=
  C9_amended_order (fun s => Except.ok (s ++ "Y")) id initState "wb.xlsx"
    [("本", ⟨["A"], []⟩), ("Data", ⟨[], []⟩)] (by decide)

/-- C10: starting from a cache all of whose keys are non-ASCII (the fresh
`Translator`'s empty cache in particular), every key of the cache after a
full `translate_excel` run is a non-ASCII string — every call path into
`translate` filters its items through a non-ASCII check first — and
consequently the header-rename lookup `cache.get(old, old)`, although
computed over all columns, maps every ASCII header to itself under any cache
satisfying the invariant. -/
theorem C10_cache_keys_nonascii (svc : Svc) (σ : List String → List String)
    (hσ : ∀ l, (σ l).Perm l) (st : TrState) (path : String)
    (wb : List (String × DataFrame)) (hst : CacheKeysNA st.cache) :
    CacheKeysNA (Translator.translate_excel svc σ st path wb).2.cache ∧
      (∀ c : Cache, CacheKeysNA c → ∀ h0 : String, pyIsascii h0 = true →
        (c h0).getD h0 = h0) :=
  ⟨translate_excel_keysNA svc σ hσ st path wb hst,
   fun c hc h0 ha => getD_ascii_of_keysNA c hc h0 ha⟩

/-- Witness for C10 on a concrete run from the fresh state. -/
theorem C10_witness :
    CacheKeysNA (Translator.translate_excel (fun s => Except.ok (s ++ "Z")) id
        initState "a.xlsx" [("語", ⟨["héé"], [[Cell.str "日"]]⟩)]).2.cache ∧
      (∀ c : Cache, CacheKeysNA c → ∀ h0 : String, pyIsascii h0 = true →
        (c h0).getD h0 = h0) :=
  C10_cache_keys_nonascii (fun s => Except.ok (s ++ "Z")) id
    (fun l => List.Perm.refl l) initState "a.xlsx"
    [("語", ⟨["héé"], [[Cell.str "日"]]⟩)] cacheKeysNA_empty

/-- C8: two runs of the full pipeline on the same input workbook and path,
under one deterministic service that succeeds on every request, produce the
same written output (path and workbook): the result is independent of the
thread-pool schedules of the two runs — any faithful (permutation)
schedules — and of the runs' log/call histories. -/
theorem C8_deterministic_output (svc : Svc)
    (σ₁ σ₂ : List String → List String)
    (hσ₁ : ∀ l, (σ₁ l).Perm l) (hσ₂ : ∀ l, (σ₂ l).Perm l)
    (st₁ st₂ : TrState) (hc : st₁.cache = st₂.cache)
    (path : String) (wb : List (String × DataFrame))
    (_hok : ∀ s : String, ∃ t, svc s = Except.ok t) :
    (Translator.translate_excel svc σ₁ st₁ path wb).1 =
      (Translator.translate_excel svc σ₂ st₂ path wb).1 := by
  have hn := nameState_cache_congr svc σ₁ σ₂ hσ₁ hσ₂ st₁ st₂ hc wb
  have ha := excelArgs_congr svc σ₁ σ₂ hσ₁ hσ₂ st₁ st₂ hc wb
  have hres : excelResults svc σ₁ st₁ wb = excelResults svc σ₂ st₂ wb := by
    unfold Translator.excelResults
    rw [ha]
    exact (processSheets_congr svc σ₁ σ₂ hσ₁ hσ₂
      (excelArgs svc σ₂ st₂ wb) _ _ hn).1
  show (s!"translated_{path}", dictOf (excelResults svc σ₁ st₁ wb)) = _
  rw [hres]
  rfl

/-- Witness for C8: the identity schedule against the reversing schedule on
a concrete workbook, with an always-succeeding service. -/
theorem C8_witness :
    (Translator.translate_excel (fun s => Except.ok (s ++ "!")) id initState
        "in.xlsx" [("価格", ⟨["名前"], [[Cell.str "円"]]⟩)]).1 =
      (Translator.translate_excel (fun s => Except.ok (s ++ "!")) List.reverse
        initState "in.xlsx" [("価格", ⟨["名前"], [[Cell.str "円"]]⟩)]).1 :=
  C8_deterministic_output (fun s => Except.ok (s ++ "!")) id List.reverse
    (fun l => List.Perm.refl l) (fun l => List.reverse_perm l) initState
    initState rfl "in.xlsx" [("価格", ⟨["名前"], [[Cell.str "円"]]⟩)]
    (fun s => ⟨s ++ "!", rfl⟩)

/-- C3: in a full run starting from a state whose cache keys and previous
service calls are all non-ASCII (the fresh state in particular): (a) no
ASCII string is ever sent to the translation service — and non-string cells,
not being strings, cannot be sent at all — and (b) in every sheet, whatever
its name, every ASCII header and every unflagged cell (ASCII strings,
numbers, missing values) appears unchanged in the sheet's processed output;
a sheet whose name is ASCII moreover keeps that name and is present in the
output workbook under it. -/
theorem C3_ascii_unchanged (svc : Svc) (σ : List String → List String)
    (hσ : ∀ l, (σ l).Perm l) (st : TrState) (path : String)
    (wb : List (String × DataFrame)) (hst : CacheKeysNA st.cache)
    (hcalls : ∀ s ∈ st.calls, pyIsascii s = false) :
    (∀ s : String, pyIsascii s = true →
        s ∉ (Translator.translate_excel svc σ st path wb).2.calls) ∧
      (∀ (i : Nat) (name : String) (df : DataFrame),
        wb[i]? = some (name, df) →
        ∃ c : Cache, CacheKeysNA c ∧
          (excelResults svc σ st wb)[i]? =
            some (((nameState svc σ st wb).cache name).getD name,
              rewriteSheet c df) ∧
          (∀ (j : Nat) (h0 : String), df.columns[j]? = some h0 →
            pyIsascii h0 = true →
              (rewriteSheet c df).columns[j]? = some h0) ∧
          (∀ i0 j0 cell, getCell df i0 j0 = some cell →
            cellFlagged cell = false →
              getCell (rewriteSheet c df) i0 j0 = some cell) ∧
          (pyIsascii name = true →
            (excelResults svc σ st wb)[i]? = some (name, rewriteSheet c df) ∧
            name ∈
              (Translator.translate_excel svc σ st path wb).1.2.map
                Prod.fst)) := by
  constructor
  · intro s hs hmem
    have hna := translate_excel_callsNA svc σ hσ st path wb hcalls s hmem
    rw [hs] at hna
    cases hna
  · intro i name df hi
    have hnsNA := nameState_keysNA svc σ hσ st wb hst
    have hargs : (excelArgs svc σ st wb)[i]? =
        some (((nameState svc σ st wb).cache name).getD name, df) := by
      unfold Translator.excelArgs
      rw [List.getElem?_map, hi]
      rfl
    obtain ⟨c, hcNA, hres⟩ := processSheets_get_keysNA svc σ hσ
      (nameState svc σ st wb) (excelArgs svc σ st wb) hnsNA i _ df hargs
    refine ⟨c, hcNA, hres, ?_, ?_, ?_⟩
    · intro j h0 hj h0a
      rw [rewriteSheet_header c df j h0 hj,
        getD_ascii_of_keysNA c hcNA h0 h0a]
    · intro i0 j0 cell hcell hflag
      rw [getCell_rewriteSheet, hcell]
      simp [translateCell_unflagged c cell hflag]
    · intro hna
      have hgd : ((nameState svc σ st wb).cache name).getD name = name :=
        getD_ascii_of_keysNA _ hnsNA name hna
      rw [hgd] at hres
      refine ⟨hres, ?_⟩
      show name ∈ (dictOf (excelResults svc σ st wb)).map Prod.fst
      rw [mem_dictOf_map_fst]
      exact List.mem_map.mpr ⟨(name, rewriteSheet c df),
        List.mem_iff_getElem?.mpr ⟨i, hres⟩, rfl⟩

/-- Witness for C3: a fresh-state run over a workbook whose first sheet has
a non-ASCII name but an ASCII header, an ASCII string cell and a numeric
cell — all preserved — and whose second sheet has the ASCII name "Sheet2",
kept in the output. -/
theorem C3_witness :
    (∀ s : String, pyIsascii s = true →
        s ∉ (Translator.translate_excel (fun t => Except.ok (t ++ "T")) id
          initState "c.xlsx"
          [("日本語", ⟨["Name"], [[Cell.str "abc", Cell.num 7]]⟩),
           ("Sheet2", ⟨["Y"], []⟩)]).2.calls) ∧
      (∃ c : Cache, CacheKeysNA c ∧
        (excelResults (fun t => Except.ok (t ++ "T")) id initState
            [("日本語", ⟨["Name"], [[Cell.str "abc", Cell.num 7]]⟩),
             ("Sheet2", ⟨["Y"], []⟩)])[0]? =
          some (((nameState (fun t => Except.ok (t ++ "T")) id initState
                [("日本語", ⟨["Name"], [[Cell.str "abc", Cell.num 7]]⟩),
                 ("Sheet2", ⟨["Y"], []⟩)]).cache "日本語").getD "日本語",
            rewriteSheet c ⟨["Name"], [[Cell.str "abc", Cell.num 7]]⟩) ∧
        (rewriteSheet c ⟨["Name"], [[Cell.str "abc", Cell.num 7]]⟩).columns[0]? =
          some "Name" ∧
        getCell (rewriteSheet c ⟨["Name"], [[Cell.str "abc", Cell.num 7]]⟩) 0 0 =
          some (Cell.str "abc") ∧
        getCell (rewriteSheet c ⟨["Name"], [[Cell.str "abc", Cell.num 7]]⟩) 0 1 =
          some (Cell.num 7)) ∧
      (∃ c : Cache, CacheKeysNA c ∧
        (excelResults (fun t => Except.ok (t ++ "T")) id initState
            [("日本語", ⟨["Name"], [[Cell.str "abc", Cell.num 7]]⟩),
             ("Sheet2", ⟨["Y"], []⟩)])[1]? =
          some ("Sheet2", rewriteSheet c ⟨["Y"], []⟩) ∧
        "Sheet2" ∈ (Translator.translate_excel (fun t => Except.ok (t ++ "T"))
            id initState "c.xlsx"
            [("日本語", ⟨["Name"], [[Cell.str "abc", Cell.num 7]]⟩),
             ("Sheet2", ⟨["Y"], []⟩)]).1.2.map Prod.fst) := by
  have h := C3_ascii_unchanged (fun t => Except.ok (t ++ "T")) id
    (fun l => List.Perm.refl l) initState "c.xlsx"
    [("日本語", ⟨["Name"], [[Cell.str "abc", Cell.num 7]]⟩),
     ("Sheet2", ⟨["Y"], []⟩)]
    cacheKeysNA_empty (fun s hs => absurd hs (List.not_mem_nil s))
  refine ⟨h.1, ?_, ?_⟩
  · obtain ⟨c, hcNA, hres, hcols, hcells, -⟩ := h.2 0 "日本語"
      ⟨["Name"], [[Cell.str "abc", Cell.num 7]]⟩ rfl
    exact ⟨c, hcNA, hres, hcols 0 "Name" rfl (by decide),
      hcells 0 0 (Cell.str "abc") rfl (by decide),
      hcells 0 1 (Cell.num 7) rfl (by decide)⟩
  · obtain ⟨c, hcNA, -, -, -, hascii⟩ := h.2 1 "Sheet2" ⟨["Y"], []⟩ rfl
    obtain ⟨hres2, hkey2⟩ := hascii (by decide)
    exact ⟨c, hcNA, hres2, hkey2⟩

/-- C5: each worksheet's data is paired with the sheet's translated name
when the name is a key of the post-name-dispatch cache, and with the
original name otherwise; when a sheet's name is uncached and its service
call fails, the sheet appears in the written workbook under its original
name, literally, and — the name being flagged (non-ASCII) — the failure is
logged; and a sheet with an ASCII name, all-ASCII headers and unflagged
cells (like "Sheet2" in the claim's scenario) is written entirely
unchanged under its own name. -/
theorem C5_sheet_name_fallback (svc : Svc) (σ : List String → List String)
    (hσ : ∀ l, (σ l).Perm l) (st : TrState) (path : String)
    (wb : List (String × DataFrame)) (hst : CacheKeysNA st.cache) :
    (∀ (i : Nat) (name : String) (df : DataFrame),
        wb[i]? = some (name, df) →
          ∃ df2, (excelResults svc σ st wb)[i]? =
            some (((nameState svc σ st wb).cache name).getD name, df2)) ∧
      (∀ (i : Nat) (name : String) (df : DataFrame) (e : String),
        wb[i]? = some (name, df) → st.cache name = none →
        svc name = Except.error e →
          (∃ df2, (excelResults svc σ st wb)[i]? = some (name, df2)) ∧
          name ∈
            (Translator.translate_excel svc σ st path wb).1.2.map Prod.fst ∧
          (pyIsascii name = false →
            LogEntry.warning s!"Failed to translate item: {name}" ∈
              (Translator.translate_excel svc σ st path wb).2.log)) ∧
      (∀ (i : Nat) (name : String) (df : DataFrame),
        wb[i]? = some (name, df) → pyIsascii name = true →
        (∀ h0 ∈ df.columns, pyIsascii h0 = true) →
        (∀ r ∈ df.rows, ∀ cell ∈ r, cellFlagged cell = false) →
          (excelResults svc σ st wb)[i]? = some (name, df) ∧
          name ∈
            (Translator.translate_excel svc σ st path wb).1.2.map Prod.fst) := by
  have hpair : ∀ (i : Nat) (name : String) (df : DataFrame),
      wb[i]? = some (name, df) →
        ∃ df2, (excelResults svc σ st wb)[i]? =
          some (((nameState svc σ st wb).cache name).getD name, df2) := by
    intro i name df hi
    have hargs : (excelArgs svc σ st wb)[i]? =
        some (((nameState svc σ st wb).cache name).getD name, df) := by
      unfold Translator.excelArgs
      rw [List.getElem?_map, hi]
      rfl
    obtain ⟨c, hres⟩ := processSheets_get svc σ (nameState svc σ st wb)
      (excelArgs svc σ st wb) i _ df hargs
    exact ⟨rewriteSheet c df, hres⟩
  refine ⟨hpair, ?_, ?_⟩
  · intro i name df e hi hc0 he
    have hnone : (nameState svc σ st wb).cache name = none := by
      rw [nameState_cache_eq svc σ hσ st wb name]
      by_cases hmem : name ∈ check_cache st.cache (nonAsciiNames wb)
      · rw [if_pos hmem]
        simp [svcApply, he, hc0]
      · rw [if_neg hmem]
        exact hc0
    obtain ⟨df2, hdf2⟩ := hpair i name df hi
    rw [hnone] at hdf2
    simp only [Option.getD_none] at hdf2
    refine ⟨⟨df2, hdf2⟩, ?_, ?_⟩
    · show name ∈ (dictOf (excelResults svc σ st wb)).map Prod.fst
      rw [mem_dictOf_map_fst]
      exact List.mem_map.mpr
        ⟨(name, df2), List.mem_iff_getElem?.mpr ⟨i, hdf2⟩, rfl⟩
    · intro hnaF
      have hmemName : name ∈ nonAsciiNames wb :=
        (mem_nonAsciiNames wb name).mpr
          ⟨List.mem_map.mpr
            ⟨(name, df), List.mem_iff_getElem?.mpr ⟨i, hi⟩, rfl⟩,
           hnaF⟩
      have hmemCC : name ∈ check_cache st.cache (nonAsciiNames wb) :=
        (mem_check_cache _ _ name).mpr ⟨hmemName, hc0⟩
      have hlen : 0 < (check_cache st.cache (nonAsciiNames wb)).length := by
        rcases hl : check_cache st.cache (nonAsciiNames wb) with - | ⟨a, l⟩
        · rw [hl] at hmemCC
          cases hmemCC
        · simp
      have hwarn : LogEntry.warning s!"Failed to translate item: {name}" ∈
          (nameState svc σ st wb).log := by
        unfold Translator.nameState
        simp only [if_pos hlen]
        unfold Translator.translate_async
        exact foldl_translate_log_fail svc _ _ name e
          ((hσ _).mem_iff.mpr hmemCC) he
      obtain ⟨t, ht⟩ := processSheets_log_extend svc σ (nameState svc σ st wb)
        (excelArgs svc σ st wb)
      show LogEntry.warning _ ∈ (processSheets svc σ (nameState svc σ st wb)
        (excelArgs svc σ st wb)).2.log
      rw [ht]
      exact List.mem_append_left t hwarn
  · intro i name df hi hna hcols hcells
    have hnsNA := nameState_keysNA svc σ hσ st wb hst
    have hargs : (excelArgs svc σ st wb)[i]? = some (name, df) := by
      unfold Translator.excelArgs
      rw [List.getElem?_map, hi]
      show some ((((nameState svc σ st wb).cache name).getD name), df) = _
      rw [getD_ascii_of_keysNA _ hnsNA name hna]
    obtain ⟨c, hcNA, hres⟩ := processSheets_get_keysNA svc σ hσ
      (nameState svc σ st wb) (excelArgs svc σ st wb) hnsNA i name df hargs
    rw [rewriteSheet_eq_self c hcNA df hcols hcells] at hres
    refine ⟨hres, ?_⟩
    show name ∈ (dictOf (excelResults svc σ st wb)).map Prod.fst
    rw [mem_dictOf_map_fst]
    exact List.mem_map.mpr
      ⟨(name, df), List.mem_iff_getElem?.mpr ⟨i, hres⟩, rfl⟩

/-- Witness for C5: a workbook with sheets "日本語" and "Sheet2" and a service
that fails on every request; the output workbook has a sheet literally named
"日本語", the failure is logged, and the sheet "Sheet2" is written entirely
unchanged. -/
theorem C5_witness :
    (∃ df2, (excelResults (fun _ => Except.error "net down") id initState
        [("日本語", ⟨["X"], [[Cell.num 1]]⟩), ("Sheet2", ⟨["Y"], []⟩)])[0]? =
          some ("日本語", df2)) ∧
      "日本語" ∈ (Translator.translate_excel (fun _ => Except.error "net down")
          id initState "t.xlsx"
          [("日本語", ⟨["X"], [[Cell.num 1]]⟩), ("Sheet2", ⟨["Y"], []⟩)]).1.2.map
          Prod.fst ∧
      (pyIsascii "日本語" = false →
        LogEntry.warning "Failed to translate item: 日本語" ∈
          (Translator.translate_excel (fun _ => Except.error "net down") id
            initState "t.xlsx"
            [("日本語", ⟨["X"], [[Cell.num 1]]⟩),
             ("Sheet2", ⟨["Y"], []⟩)]).2.log) ∧
      (excelResults (fun _ => Except.error "net down") id initState
          [("日本語", ⟨["X"], [[Cell.num 1]]⟩), ("Sheet2", ⟨["Y"], []⟩)])[1]? =
        some ("Sheet2", ⟨["Y"], []⟩) ∧
      "Sheet2" ∈ (Translator.translate_excel (fun _ => Except.error "net down")
          id initState "t.xlsx"
          [("日本語", ⟨["X"], [[Cell.num 1]]⟩), ("Sheet2", ⟨["Y"], []⟩)]).1.2.map
          Prod.fst := by
  have h := C5_sheet_name_fallback (fun _ => Except.error "net down") id
    (fun l => List.Perm.refl l) initState "t.xlsx"
    [("日本語", ⟨["X"], [[Cell.num 1]]⟩), ("Sheet2", ⟨["Y"], []⟩)]
    cacheKeysNA_empty
  obtain ⟨hp, hm, hl⟩ := h.2.1 0 "日本語" ⟨["X"], [[Cell.num 1]]⟩
    "net down" rfl rfl rfl
  obtain ⟨hres2, hkey2⟩ := h.2.2 1 "Sheet2" ⟨["Y"], []⟩ rfl (by decide)
    (by decide) (by decide)
  exact ⟨hp, hm, hl, hres2, hkey2⟩
